import Mathlib

/-!
# busybus: the bbusd daemon and bbus_build_string

A shallow embedding of `src/bin/bbusd.c` and `src/lib/string.c`.

Pointers are natural numbers, `0` being `NULL`.  A pointer `p ≥ 1` into a heap
(a list of objects in order of creation) designates the object at index `p - 1`.
Functions that can call `die` or dereference a pointer that designates no object
return an `Outcome`.
-/

namespace Busybus

/-! ## Common types -/

/-- A pointer: `0` is `NULL`. -/
abbrev Ptr := Nat

/-- How a C function of the daemon can end. -/
inductive Outcome (α : Type) where
  /-- the function returns normally -/
  | ret : α → Outcome α
  /-- the function `die(...)` was called: the process exits -/
  | died : String → Outcome α
  /-- a pointer that designates no object was dereferenced -/
  | invalid : Outcome α
deriving DecidableEq, Repr

/-- Sequencing of outcomes. -/
def Outcome.bind {α β : Type} (o : Outcome α) (f : α → Outcome β) : Outcome β :=
  match o with
  | .ret a => f a
  | .died m => .died m
  | .invalid => .invalid

/-- The object a pointer designates in a heap, `none` for `NULL` and for
pointers past the end of the heap. -/
def deref {α : Type} (heap : List α) (p : Ptr) : Option α :=
  if p = 0 then none else heap[p - 1]?

/-- Overwrite the object a pointer designates. -/
def store {α : Type} (heap : List α) (p : Ptr) (v : α) : List α :=
  if p = 0 then heap else heap.set (p - 1) v

/-- The constant `UINT_MAX` of `<limits.h>` for a 32-bit `unsigned int`. -/
def UINT_MAX : Nat := 4294967295

/-- Modelled from the spec: the role of a client, caller or service.  The
constants `BBUS_CLIENT_CALLER` and `BBUS_CLIENT_SERVICE` are declared in
`busybus.h`, which is not among the sources; `unknown` stands for every other
value `bbus_client_gettype` can return. -/
inductive client_type where
  | BBUS_CLIENT_CALLER
  | BBUS_CLIENT_SERVICE
  | unknown (n : Nat)
deriving DecidableEq, Repr

/-- Modelled from the spec: the kind of a message, one of call, reply, service
registration and service withdrawal.  The constants `BBUS_MSGTYPE_...` are
declared in `busybus.h`, which is not among the sources; `unknown` stands for
every value of the `msgtype` field that is none of the four. -/
inductive msg_type where
  | BBUS_MSGTYPE_CLICALL
  | BBUS_MSGTYPE_SRVREG
  | BBUS_MSGTYPE_SRVUNREG
  | BBUS_MSGTYPE_SRVREPLY
  | unknown (n : Nat)
deriving DecidableEq, Repr

/-- Modelled from the spec: `struct bbus_msg_hdr` is declared in `busybus.h`.
The header holds the kind of the message and a 32-bit token; these are the two
fields the daemon reads. -/
structure bbus_msg_hdr where
  msgtype : msg_type
  token : Nat
deriving DecidableEq, Repr

/-- Modelled from the spec: `struct bbus_msg` is declared in `busybus.h`.  A
message is a header followed by a payload, which for a call starts with the
method path. -/
structure bbus_msg where
  hdr : bbus_msg_hdr
  payload : String
deriving DecidableEq, Repr

/-- Modelled from the spec: `bbus_client` is declared in `busybus.h`.  A
connection has a role, read with `bbus_client_gettype`, and a token, written
with `bbus_client_settoken`; `token = none` until a token is set. -/
structure bbus_client where
  type : client_type
  token : Option Nat
deriving DecidableEq, Repr

/-- The type `struct clientlist_elem`. -/
structure clientlist_elem where
  next : Ptr
  prev : Ptr
  cli : Ptr
deriving DecidableEq, Repr

/-- The constant `METHOD_LOCAL`. -/
def METHOD_LOCAL : Nat := 1

/-- The constant `METHOD_REMOTE`. -/
def METHOD_REMOTE : Nat := 2

/-- The type `struct method`, with `data` the function of a `struct local_method` or
the `srvc` pointer of a `struct remote_method`. -/
structure method where
  type : Nat
  data : Ptr
deriving DecidableEq, Repr

/-- The type `struct service_map`: two maps keyed by name, one to sub-services and one
to methods. -/
inductive service_map where
  | mk (subsrvc : List (String × service_map)) (methods : List (String × method))

/-- The `methods` map of a service map. -/
def service_map.methods : service_map → List (String × method)
  | .mk _ m => m

/-- The `subsrvc` map of a service map. -/
def service_map.subsrvc : service_map → List (String × service_map)
  | .mk s _ => s

/-- The global state of the daemon: its static variables, the two heaps they
point into, and the trace of what was sent and logged. -/
structure Daemon where
  clients_head : Ptr
  clients_tail : Ptr
  /-- heap of `struct clientlist_elem` -/
  elems : List clientlist_elem
  /-- heap of `bbus_client`, in order of `bbus_srv_accept` -/
  conns : List bbus_client
  /-- token to list element -/
  caller_map : List (Nat × Ptr)
  /-- the registry, `NULL` until allocated -/
  srvc_map : Option service_map
  /-- the static counter of `make_token` -/
  curtok : Nat
  /-- calls of `bbus_srv_sendmsg`: target client and message, oldest first -/
  sent : List (Ptr × bbus_msg)
  /-- format strings passed to `log`, oldest first -/
  logged : List String

/-- The function `log(lvl, fmt, ...)`: recorded by its format string. -/
def log (s : Daemon) (fmt : String) : Daemon :=
  { s with logged := s.logged ++ [fmt] }

/-! ## The maps of the library (declared in `busybus.h`) -/

/-- Modelled from the spec: `bbus_hmap_find` is declared in `busybus.h`.  The
caller map is a mapping from tokens: the result is the value stored under the
key, `NULL` when there is none. -/
def bbus_hmap_find (m : List (Nat × Ptr)) (key : Nat) : Ptr :=
  match m.lookup key with
  | some v => v
  | none => 0

/-- Modelled from the spec: `bbus_hmap_insert` is declared in `busybus.h`.  When
it succeeds the key is bound to the value, a previous binding of the key being
replaced. -/
def bbus_hmap_insert (m : List (Nat × Ptr)) (key : Nat) (val : Ptr) : List (Nat × Ptr) :=
  (key, val) :: m.filter (fun kv => kv.1 != key)

/-! ## `make_token` -/

/-- The function `make_token` on the counter value `curtok`: the returned token and the
new counter value.  The counter is a `uint32_t`. -/
def make_token (curtok : Nat) : Nat × Nat :=
  let curtok := if curtok = UINT_MAX then 0 else curtok
  let curtok := (curtok + 1) % 2 ^ 32
  (curtok, curtok)

/-- The counter after `n` calls of `make_token`, the counter being `c` before. -/
def curtok_after (c : Nat) : Nat → Nat
  | 0 => c
  | n + 1 => (make_token (curtok_after c n)).2

/-- The token returned by call number `n` (counted from 1) of `make_token`
since the start of the daemon, when the counter is `0`. -/
def issued_token (n : Nat) : Nat :=
  (make_token (curtok_after 0 (n - 1))).1

/-! ## The client list -/

/-- Apply `f` to the object a pointer designates; `none` when it designates
no object. -/
def modify {α : Type} (heap : List α) (p : Ptr) (f : α → α) : Option (List α) :=
  (deref heap p).map (fun v => store heap p (f v))

/-- The function `insque(elem, prev)` of the C library on the heap of list elements:
`elem` becomes a list of its own when `prev` is `NULL`, and is linked in
right after `prev` otherwise. -/
def insque (elems : List clientlist_elem) (elem prev : Ptr) :
    Option (List clientlist_elem) :=
  if prev = 0 then
    modify elems elem (fun e => { e with next := 0, prev := 0 })
  else
    (deref elems prev).bind fun p =>
    let next := p.next
    (modify elems prev (fun e => { e with next := elem })).bind fun elems =>
    (if next ≠ 0 then modify elems next (fun e => { e with prev := elem })
      else some elems).bind fun elems =>
    modify elems elem (fun e => { e with next := next, prev := prev })

/-- The function `client_list_add(cli)`; `malloc_ok` tells whether `bbus_malloc` returns a
new element.  Returns the new state and the `int` result. -/
def client_list_add (s : Daemon) (cli : Ptr) (malloc_ok : Bool) :
    Outcome (Daemon × Int) :=
  if malloc_ok = false then
    .ret (s, -1)
  else
    let el : Ptr := s.elems.length + 1
    let elems := s.elems ++ [{ next := 0, prev := 0, cli := cli }]
    match insque elems el s.clients_tail with
    | none => .invalid
    | some elems => .ret ({ s with elems := elems }, 0)

/-- The loop `for (tmpcli = start; tmpcli != NULL; tmpcli = tmpcli->next)` of
`run_main_loop`, collecting the `tmpcli->cli` handed to `bbus_pollset_addcli`.
`none` when a pointer designates no element or the fuel runs out (a cycle). -/
def poll_walk (elems : List clientlist_elem) : Nat → Ptr → Option (List Ptr)
  | _, 0 => some []
  | 0, _ + 1 => none
  | fuel + 1, p + 1 =>
    match deref elems (p + 1) with
    | none => none
    | some e => (poll_walk elems fuel e.next).map (fun l => e.cli :: l)

/-- The clients `run_main_loop` adds to the poll set: the list from
`clients_head`. -/
def client_list (s : Daemon) : Option (List Ptr) :=
  poll_walk s.elems (s.elems.length + 1) s.clients_head

/-! ## Accepting clients -/

/-- Modelled from the spec: `bbus_client_gettype(cli)` is declared in
`busybus.h`; it reads the role of the connection. -/
def bbus_client_gettype (s : Daemon) (cli : Ptr) : Option client_type :=
  (deref s.conns cli).map (fun c => c.type)

/-- Modelled from the spec: `bbus_client_settoken(cli, token)` is declared in
`busybus.h`; it assigns the token of the connection. -/
def bbus_client_settoken (s : Daemon) (cli : Ptr) (token : Nat) : Option Daemon :=
  (modify s.conns cli (fun c => { c with token := some token })).map
    (fun conns => { s with conns := conns })

/-- One pending incoming connection, as one iteration of the loop of
`accept_clients` meets it. -/
structure pending where
  /-- result of `bbus_srv_accept`: `none` for `NULL`, else the role of the new client -/
  accepted : Option client_type
  /-- whether `bbus_malloc` in `client_list_add` returns an element -/
  malloc_ok : Bool
  /-- the result of `bbus_hmap_insert`, should it be called -/
  insert_r : Int
deriving DecidableEq, Repr

/-- One iteration of the `while` loop of `accept_clients`. -/
def accept_client (s : Daemon) (p : pending) : Outcome Daemon :=
  match p.accepted with
  | none => .ret (log s "Error accepting incoming client connection: %s\n")
  | some t =>
    -- `bbus_srv_accept` made a new client object, the next of the heap
    let cli : Ptr := s.conns.length + 1
    let s := { s with conns := s.conns ++ [{ type := t, token := none }] }
    (client_list_add s cli p.malloc_ok).bind fun (s, r) =>
    -- `if (r == NULL)`: an `int` compared with the null pointer constant
    if r = 0 then
      .ret (log s "Error adding new client to the list: %s\n")
    else
      match bbus_client_gettype s cli with
      | none => .invalid
      | some .BBUS_CLIENT_CALLER =>
        let (token, curtok) := make_token s.curtok
        let s := { s with curtok := curtok }
        match bbus_client_settoken s cli token with
        | none => .invalid
        | some s =>
          if p.insert_r < 0 then
            .ret (log s "Error adding new client to the caller map: %s\n")
          else
            .ret { s with
              caller_map := bbus_hmap_insert s.caller_map token s.clients_tail }
      | some .BBUS_CLIENT_SERVICE => .ret s
      | some (.unknown _) => .ret s

/-- The function `accept_clients`: the loop runs once for each pending connection. -/
def accept_clients : Daemon → List pending → Outcome Daemon
  | s, [] => .ret s
  | s, p :: ps => (accept_client s p).bind fun s => accept_clients s ps

/-- The state in which `run_main_loop` starts: the client list is what
`bbus_make_client_list` built, the caller map is empty, nobody has connected,
and the other static variables have their initial values. -/
def startup (head : Ptr) (elems : List clientlist_elem)
    (srvc_map : Option service_map) : Daemon :=
  { clients_head := head, clients_tail := 0, elems := elems, conns := [],
    caller_map := [], srvc_map := srvc_map, curtok := 0, sent := [], logged := [] }

/-- The number of pending connections of a sequence that are accepted with
the role of a caller. -/
def callers_accepted : List pending → Nat
  | [] => 0
  | p :: ps =>
    (if p.accepted = some .BBUS_CLIENT_CALLER then 1 else 0) + callers_accepted ps

/-- No two distinct caller connections carry the same token. -/
def tokens_unique (s : Daemon) : Prop :=
  ∀ (i j : Nat) (a b : bbus_client) (t : Nat), i ≠ j →
    s.conns[i]? = some a → s.conns[j]? = some b →
    a.type = .BBUS_CLIENT_CALLER → b.type = .BBUS_CLIENT_CALLER →
    a.token = some t → b.token ≠ some t

/-! ## Handling a message -/

/-- Modelled from the spec: `bbus_srv_sendmsg(cli, msg)` is declared in
`busybus.h`; it sends the message to the connection, which the trace records. -/
def bbus_srv_sendmsg (s : Daemon) (cli : Ptr) (msg : bbus_msg) : Daemon :=
  { s with sent := s.sent ++ [(cli, msg)] }

/-- The function `pass_srvc_reply(srvc, msg)`; `send_r` is what `bbus_srv_sendmsg` returns,
should it be called. -/
def pass_srvc_reply (s : Daemon) (_srvc : Ptr) (msg : bbus_msg) (send_r : Int) :
    Outcome (Daemon × Int) :=
  let cli := bbus_hmap_find s.caller_map msg.hdr.token
  if cli = 0 then
    .ret (log s "Caller not found for reply.\n", -1)
  else
    match deref s.elems cli with
    | none => .invalid
    | some e => .ret (bbus_srv_sendmsg s e.cli msg, send_r)

/-- The function `call_local_method`: the body is empty, so nothing happens and the value
returned is whatever `junk` the caller finds. -/
def call_local_method (s : Daemon) (_cli : Ptr) (_msg : bbus_msg) (_mthd : method)
    (junk : Int) : Outcome (Daemon × Int) :=
  .ret (s, junk)

/-- The two functions `handle_clientcall` calls that the sources do not
define, and `validate_msg`, which `handle_client` calls. -/
structure Undefined where
  /-- the function `locate_method(mname)`, `none` for `NULL` -/
  locate_method : Daemon → String → Option method
  /-- the function `call_remote_method(cli, msg, mthd)` -/
  call_remote_method : Daemon → Ptr → bbus_msg → method → Outcome (Daemon × Int)
  /-- the function `validate_msg(msgbuf)` -/
  validate_msg : bbus_msg → Int

/-- The function `handle_clientcall(cli, msg)`. -/
def handle_clientcall (u : Undefined) (s : Daemon) (cli : Ptr) (msg : bbus_msg)
    (junk : Int) : Outcome (Daemon × Int) :=
  let mname := msg.payload
  match u.locate_method s mname with
  | none => .ret (log s "No such method: %s\n", -1)
  | some mthd =>
    if mthd.type = METHOD_LOCAL then
      call_local_method s cli msg mthd junk
    else if mthd.type = METHOD_REMOTE then
      u.call_remote_method s cli msg mthd
    else
      .died "Internal logic error, invalid method type\n"

/-- The function `register_service(cli, msg)`. -/
def register_service (s : Daemon) (_cli : Ptr) (_msg : bbus_msg) : Daemon × Int :=
  (s, 0)

/-- The function `unregister_service(cli, msg)`. -/
def unregister_service (s : Daemon) (_cli : Ptr) (_msg : bbus_msg) : Daemon × Int :=
  (s, 0)

/-- What the library calls made while one client is handled give back. -/
structure received where
  /-- the result of `bbus_srv_recvmsg` -/
  recv_r : Int
  /-- the content of `msgbuf` after `bbus_srv_recvmsg` -/
  msgbuf : bbus_msg
  /-- the result of `bbus_srv_sendmsg`, should it be called -/
  send_r : Int
  /-- the value found where `call_local_method` returns none -/
  junk : Int

/-- The function `handle_client(cli)`. -/
def handle_client (u : Undefined) (s : Daemon) (cli : Ptr) (io : received) :
    Outcome Daemon :=
  if io.recv_r < 0 then
    .ret (log s "Error receiving message from client: %s\n")
  else if u.validate_msg io.msgbuf < 0 then
    .ret (log s "Invalid message received: %s\n")
  else
    match bbus_client_gettype s cli with
    | none => .invalid
    | some .BBUS_CLIENT_CALLER =>
      match io.msgbuf.hdr.msgtype with
      | .BBUS_MSGTYPE_CLICALL =>
        (handle_clientcall u s cli io.msgbuf io.junk).bind fun (s, r) =>
        if r < 0 then .ret (log s "Error on client call: %s\n") else .ret s
      | _ => .ret (log s "Unexpected message received.\n")
    | some .BBUS_CLIENT_SERVICE =>
      match io.msgbuf.hdr.msgtype with
      | .BBUS_MSGTYPE_SRVREG =>
        let (s, r) := register_service s cli io.msgbuf
        if r < 0 then .ret (log s "Error registering a service: %s\n") else .ret s
      | .BBUS_MSGTYPE_SRVUNREG =>
        let (s, r) := unregister_service s cli io.msgbuf
        if r < 0 then .ret (log s "Error unregistering a service: %s\n") else .ret s
      | .BBUS_MSGTYPE_SRVREPLY =>
        (pass_srvc_reply s cli io.msgbuf io.send_r).bind fun (s, r) =>
        if r < 0 then .ret (log s "Error passing a service reply: %s\n") else .ret s
      | _ => .ret (log s "Unexpected message received.\n")
    | some (.unknown _) =>
      .ret (log s "Unhandled client type in the received message.\n")

/-- Whether a message kind is one `handle_client` dispatches for a role. -/
def kind_allowed : client_type → msg_type → Bool
  | .BBUS_CLIENT_CALLER, .BBUS_MSGTYPE_CLICALL => true
  | .BBUS_CLIENT_SERVICE, .BBUS_MSGTYPE_SRVREG => true
  | .BBUS_CLIENT_SERVICE, .BBUS_MSGTYPE_SRVUNREG => true
  | .BBUS_CLIENT_SERVICE, .BBUS_MSGTYPE_SRVREPLY => true
  | _, _ => false

/-! ## The method registry -/

/-- Modelled from the spec: `locate_method` is called but not defined in the
sources.  `Resolve(path)` of the spec: exact-match lookup walking the registry
segment by segment, the segments before the last naming sub-services and the
last one the method. -/
def resolve : service_map → List String → Option method
  | _, [] => none
  | m, [name] => m.methods.lookup name
  | m, seg :: rest =>
    match m.subsrvc.lookup seg with
    | none => none
    | some child => resolve child rest

/-- The registry with no sub-service and no method. -/
def empty_service_map : service_map := .mk [] []

/-- The function `make_service_map`; the three flags tell whether `bbus_malloc` and the two
calls of `bbus_map_create` return an object.  The label `err` follows the last
allocation with no `return` in between. -/
def make_service_map (s : Daemon) (malloc_ok subsrvc_ok methods_ok : Bool) :
    Outcome Daemon :=
  let err : Outcome Daemon := .died "Error creating the service map: %s\n"
  if malloc_ok = false then
    err
  else if subsrvc_ok = false then
    err
  else if methods_ok = false then
    err
  else
    let _s : Daemon := { s with srvc_map := some empty_service_map }
    err

/-- Modelled from the spec: `call_remote_method` is called but not defined in
the sources.  A remote method forwards the call message, unmodified, to the
connection of the service that owns it. -/
def forward_call (s : Daemon) (_cli : Ptr) (msg : bbus_msg) (mthd : method) :
    Outcome (Daemon × Int) :=
  match deref s.elems mthd.data with
  | none => .invalid
  | some e => .ret ({ s with sent := s.sent ++ [(e.cli, msg)] }, 0)

/-- The undefined functions as the spec describes them: methods are resolved
in `srvc_map` by their dotted path, remote calls are forwarded, and every
received message is validly framed. -/
def as_specified : Undefined :=
  { locate_method := fun s mname =>
      s.srvc_map.bind (fun m => resolve m (mname.splitOn "."))
    call_remote_method := forward_call
    validate_msg := fun _ => 0 }

/-- The caller map maps a token to a list element that holds connection `c`. -/
def maps_to (s : Daemon) (token : Nat) (c : Ptr) : Prop :=
  ∃ e el, s.caller_map.lookup token = some e ∧ deref s.elems e = some el ∧ el.cli = c

/-- The invariant of the accept loop while at most `n ≤ UINT_MAX` callers have
been accepted: `clients_tail` is still `NULL`, the counter is at most `n`, and
the tokens set so far are at most the counter, each carried at most once. -/
def tokens_fresh (s : Daemon) (n : Nat) : Prop :=
  s.clients_tail = 0 ∧ s.curtok ≤ n ∧
  (∀ c ∈ s.conns, ∀ t, c.token = some t → t ≤ s.curtok) ∧
  s.conns.Pairwise (fun a b => ∀ t, a.token = some t → b.token ≠ some t)

/-! ## Example states and messages -/

/-- A pending caller connection that is accepted and for which
`client_list_add` returns `-1`, so that `accept_clients` goes on to give it a
token. -/
def caller_kept : pending :=
  { accepted := some .BBUS_CLIENT_CALLER, malloc_ok := false, insert_r := 0 }

/-- A pending caller connection for which every call succeeds. -/
def caller_ok : pending :=
  { accepted := some .BBUS_CLIENT_CALLER, malloc_ok := true, insert_r := 0 }

/-- The start state used in the examples: the client list is one element that
holds no client, the registry is empty. -/
def fresh_daemon : Daemon :=
  startup 1 [{ next := 0, prev := 0, cli := 0 }] (some empty_service_map)

/-- A daemon with two peers: client `1`, a caller carrying token `1`, held by
list element `1`, to which the caller map maps token `1`; and client `2`, a
service, held by list element `2`.  The registry is empty. -/
def two_peers : Daemon :=
  { clients_head := 1, clients_tail := 2,
    elems := [{ next := 2, prev := 0, cli := 1 }, { next := 0, prev := 1, cli := 2 }],
    conns := [{ type := .BBUS_CLIENT_CALLER, token := some 1 },
              { type := .BBUS_CLIENT_SERVICE, token := none }],
    caller_map := [(1, 1)], srvc_map := some empty_service_map, curtok := 1,
    sent := [], logged := [] }

/-- A call of the method `foo.bar` carrying token `1`. -/
def call_foo_bar : bbus_msg :=
  { hdr := { msgtype := .BBUS_MSGTYPE_CLICALL, token := 1 }, payload := "foo.bar" }

/-- A service announcing the method `calc.add`. -/
def register_calc_add : bbus_msg :=
  { hdr := { msgtype := .BBUS_MSGTYPE_SRVREG, token := 0 }, payload := "calc.add" }

/-- A reply carrying token `1`. -/
def reply_to_1 : bbus_msg :=
  { hdr := { msgtype := .BBUS_MSGTYPE_SRVREPLY, token := 1 }, payload := "5" }

/-- A message is received and every later library call succeeds. -/
def recv_ok (msg : bbus_msg) : received :=
  { recv_r := 0, msgbuf := msg, send_r := 0, junk := 0 }

/-- The call of `bbus_srv_recvmsg` fails, leaving `msgbuf` zeroed. -/
def recv_failed : received :=
  { recv_r := -1, msgbuf := { hdr := { msgtype := .unknown 0, token := 0 }, payload := "" },
    send_r := 0, junk := 0 }

/-! ## `bbus_build_string` -/

/-- The constant `INITIAL_BUFSIZE`. -/
def INITIAL_BUFSIZE : Nat := 128

/-- The constant `MAX_ITERATIONS`. -/
def MAX_ITERATIONS : Nat := 8

/-- The error code `bbus_build_string` sets by itself. -/
inductive bbus_error where
  | BBUS_NOSPACE
deriving DecidableEq, Repr

/-- What `bbus_build_string` gives back: `NULL` (`none`) or the buffer, as its
allocated size and the text it holds before the terminator; and the error it
set with `__bbus_set_err`, if any. -/
structure built where
  buf : Option (Nat × List Char)
  err : Option bbus_error
deriving DecidableEq, Repr

/-- The constant `INT_MAX` of `<limits.h>` for a 32-bit `int`. -/
def INT_MAX : Nat := 2147483647

/-- The function `vsnprintf(buf, size, fmt, va)` of the C library for arguments whose
formatted text is `text`: the buffer receives the first `size - 1` characters.
The result is an `int`: the length of the whole text when an `int` can hold
it, and a negative value, `-1`, when the length exceeds `INT_MAX`. -/
def vsnprintf (size : Nat) (text : List Char) : List Char × Int :=
  (text.take (size - 1), if text.length ≤ INT_MAX then (text.length : Int) else -1)

/-- The loop `for (i = 0; i < MAX_ITERATIONS; ++i)` of `bbus_build_string` with
`n` iterations left: `none` when `bbus_realloc` fails (`goto errout_free`), else
`newbufsize`, the buffer and `r` when the loop is left. -/
def grow (realloc_ok : Nat → Bool) (text : List Char) :
    Nat → Nat → Nat → List Char → Int → Option (Nat × List Char × Int)
  | 0, _, newbufsize, buf, r => some (newbufsize, buf, r)
  | n + 1, i, newbufsize, _, _ =>
    let newbufsize := newbufsize * 2
    if realloc_ok i = false then
      none
    else
      let (buf, r) := vsnprintf newbufsize text
      if r < (newbufsize : Int) then
        some (newbufsize, buf, r)
      else
        grow realloc_ok text n (i + 1) newbufsize buf r

/-- The function `bbus_build_string(fmt, ...)` for arguments whose formatted text is `text`;
`malloc_ok` tells whether `bbus_malloc` returns a buffer and `realloc_ok i`
whether `bbus_realloc` does in iteration `i`. -/
def bbus_build_string (malloc_ok : Bool) (realloc_ok : Nat → Bool)
    (text : List Char) : built :=
  if malloc_ok = false then
    { buf := none, err := none }
  else
    let (buf, r) := vsnprintf INITIAL_BUFSIZE text
    if r ≥ (INITIAL_BUFSIZE : Int) then
      match grow realloc_ok text MAX_ITERATIONS 0 INITIAL_BUFSIZE buf r with
      | none => { buf := none, err := none }
      | some (newbufsize, buf, r) =>
        if r ≥ (newbufsize : Int) then
          { buf := none, err := some .BBUS_NOSPACE }
        else
          { buf := some (newbufsize, buf), err := none }
    else
      { buf := some (INITIAL_BUFSIZE, buf), err := none }

/-! ## Theorems -/

theorem make_token_lt (c : Nat) (h : c < UINT_MAX) : make_token c = (c + 1, c + 1) := by
  have h1 : c ≠ UINT_MAX := Nat.ne_of_lt h
  unfold UINT_MAX at h h1
  simp only [make_token, UINT_MAX, if_neg h1]
  have : (c + 1) % 2 ^ 32 = c + 1 := Nat.mod_eq_of_lt (by omega)
  rw [this]

theorem make_token_max : make_token UINT_MAX = (1, 1) := by
  simp [make_token, UINT_MAX]

theorem curtok_after_eq (n : Nat) :
    curtok_after 0 n = if n = 0 then 0 else (n - 1) % UINT_MAX + 1 := by
  induction n with
  | zero => simp [curtok_after]
  | succ n ih =>
    rw [curtok_after, ih]
    by_cases hn : n = 0
    · subst hn
      simp [make_token, UINT_MAX]
    · simp only [if_neg hn, Nat.succ_ne_zero, if_false, Nat.add_sub_cancel]
      by_cases hm : (n - 1) % UINT_MAX + 1 = UINT_MAX
      · rw [hm, make_token_max]
        unfold UINT_MAX at hm ⊢
        omega
      · have hlt : (n - 1) % UINT_MAX + 1 < UINT_MAX := by
          have := Nat.mod_lt (n - 1) (show UINT_MAX > 0 by decide)
          omega
        rw [make_token_lt _ hlt]
        unfold UINT_MAX at hm hlt ⊢
        simp only
        omega

/-! ### `bbus_build_string` -/

theorem grow_found (realloc_ok : Nat → Bool) (text : List Char)
    (hre : ∀ i, realloc_ok i = true) (hint : text.length ≤ INT_MAX) :
    ∀ (n i sz : Nat) (buf : List Char) (r : Int) (j : Nat), j < n →
      sz * 2 ^ j ≤ text.length → text.length < sz * 2 ^ (j + 1) →
      grow realloc_ok text n i sz buf r = some (sz * 2 ^ (j + 1), text, (text.length : Int)) := by
  intro n
  induction n with
  | zero => intro i sz buf r j hj; omega
  | succ n ih =>
    intro i sz buf r j hj hlo hhi
    simp only [grow, hre, vsnprintf, if_pos hint]
    cases j with
    | zero =>
      simp only [pow_zero, mul_one, zero_add, pow_one] at hlo hhi ⊢
      have hlt : (text.length : Int) < ((sz * 2 : Nat) : Int) := by exact_mod_cast hhi
      simp only [Bool.true_eq_false, if_false, if_pos hlt]
      rw [List.take_of_length_le (by omega)]
    | succ j =>
      have h2 : sz * 2 * 2 ^ j = sz * 2 ^ (j + 1) := by rw [pow_succ]; ring
      have h3 : sz * 2 * 2 ^ (j + 1) = sz * 2 ^ (j + 1 + 1) := by
        rw [pow_succ 2 (j + 1)]; ring
      have hpos : 1 ≤ 2 ^ j := Nat.one_le_two_pow
      have hge : sz * 2 ≤ text.length := by
        calc sz * 2 = sz * 2 * 1 := by ring
          _ ≤ sz * 2 * 2 ^ j := Nat.mul_le_mul_left _ hpos
          _ = sz * 2 ^ (j + 1) := h2
          _ ≤ text.length := hlo
      have hnlt : ¬ ((text.length : Int) < ((sz * 2 : Nat) : Int)) := by
        intro h
        have : text.length < sz * 2 := by exact_mod_cast h
        omega
      simp only [Bool.true_eq_false, if_false, if_neg hnlt]
      rw [ih (i + 1) (sz * 2) _ _ j (by omega) (by rw [h2]; exact hlo) (by rw [h3]; exact hhi), h3]

theorem grow_exhausted (realloc_ok : Nat → Bool) (text : List Char)
    (hre : ∀ i, realloc_ok i = true) (hint : text.length ≤ INT_MAX) :
    ∀ (n i sz : Nat) (buf : List Char) (r : Int), sz * 2 ^ (n + 1) ≤ text.length →
      grow realloc_ok text (n + 1) i sz buf r =
        some (sz * 2 ^ (n + 1), text.take (sz * 2 ^ (n + 1) - 1), (text.length : Int)) := by
  intro n
  induction n with
  | zero =>
    intro i sz buf r h
    simp only [zero_add, pow_one] at h ⊢
    have hnlt : ¬ ((text.length : Int) < ((sz * 2 : Nat) : Int)) := by
      intro h'
      have : text.length < sz * 2 := by exact_mod_cast h'
      omega
    simp only [grow, hre, vsnprintf, if_pos hint, Bool.true_eq_false, if_false, if_neg hnlt]
  | succ n ih =>
    intro i sz buf r h
    have h3 : sz * 2 * 2 ^ (n + 1) = sz * 2 ^ (n + 1 + 1) := by
      rw [pow_succ 2 (n + 1)]; ring
    have hpos : 1 ≤ 2 ^ (n + 1) := Nat.one_le_two_pow
    have hge : sz * 2 ≤ text.length := by
      calc sz * 2 = sz * 2 * 1 := by ring
        _ ≤ sz * 2 * 2 ^ (n + 1) := Nat.mul_le_mul_left _ hpos
        _ = sz * 2 ^ (n + 1 + 1) := h3
        _ ≤ text.length := h
    have hnlt : ¬ ((text.length : Int) < ((sz * 2 : Nat) : Int)) := by
      intro h'
      have : text.length < sz * 2 := by exact_mod_cast h'
      omega
    rw [grow]
    simp only [hre, vsnprintf, if_pos hint, Bool.true_eq_false, if_false, if_neg hnlt]
    rw [ih (i + 1) (sz * 2) _ _ (by rw [h3]; exact h), h3]


/-- C2: on every 32-bit counter value `c`, `make_token` returns and stores `c + 1`
when `c < 2^32 - 1` and `1` when `c = 2^32 - 1`; the token is never `0`; and call
number `n` since the counter was `0` returns `(n - 1) mod (2^32 - 1) + 1`, that is
the sequence `1, 2, ..., 2^32 - 1, 1, 2, ...`. -/
theorem make_token_monotonic_wraparound (c : Nat) (hc : c < 2 ^ 32) :
    (c < 2 ^ 32 - 1 → make_token c = (c + 1, c + 1)) ∧
    (c = 2 ^ 32 - 1 → make_token c = (1, 1)) ∧
    (make_token c).1 ≠ 0 ∧
    (∀ n, 1 ≤ n → issued_token n = (n - 1) % (2 ^ 32 - 1) + 1) := by
  refine ⟨?_, ?_, ?_, ?_⟩
  · intro h
    exact make_token_lt c (by unfold UINT_MAX; omega)
  · intro h
    have : c = UINT_MAX := by unfold UINT_MAX; omega
    rw [this, make_token_max]
  · by_cases h : c = UINT_MAX
    · rw [h, make_token_max]; decide
    · have hlt : c < UINT_MAX := by unfold UINT_MAX at h ⊢; omega
      rw [make_token_lt c hlt]; simp
  · intro n hn
    unfold issued_token
    rw [curtok_after_eq]
    by_cases h1 : n - 1 = 0
    · have : n = 1 := by omega
      subst this
      simp [make_token, UINT_MAX]
    · rw [if_neg h1]
      by_cases hm : (n - 1 - 1) % UINT_MAX + 1 = UINT_MAX
      · rw [hm, make_token_max]
        unfold UINT_MAX at hm
        simp only
        omega
      · have hlt : (n - 1 - 1) % UINT_MAX + 1 < UINT_MAX := by
          have := Nat.mod_lt (n - 1 - 1) (show UINT_MAX > 0 by decide)
          omega
        rw [make_token_lt _ hlt]
        unfold UINT_MAX at hm hlt ⊢
        simp only
        omega

theorem make_token_monotonic_wraparound_witness :
    4294967295 < 2 ^ 32 ∧ make_token 4294967295 = (1, 1) ∧
    (make_token 4294967295).1 ≠ 0 ∧
    issued_token 4294967296 = (4294967296 - 1) % (2 ^ 32 - 1) + 1 :=
  ⟨by norm_num,
   (make_token_monotonic_wraparound 4294967295 (by norm_num)).2.1 (by norm_num),
   (make_token_monotonic_wraparound 4294967295 (by norm_num)).2.2.1,
   (make_token_monotonic_wraparound 4294967295 (by norm_num)).2.2.2 4294967296 (by norm_num)⟩

theorem bbus_build_string_overflow (realloc_ok : Nat → Bool) (text : List Char)
    (hlong : INT_MAX < text.length) :
    bbus_build_string true realloc_ok text =
      { buf := some (128, text.take 127), err := none } := by
  have hnot : ¬ (text.length ≤ INT_MAX) := by omega
  simp only [bbus_build_string, vsnprintf, INITIAL_BUFSIZE, if_neg hnot, Bool.true_eq_false,
    if_false]
  have hneg : ¬ ((-1 : Int) ≥ ((128 : Nat) : Int)) := by norm_num
  rw [if_neg hneg]

/-- C10, as stated, fails: for a formatted text of `2^31` characters, which is
not shorter than `32768`, `vsnprintf` cannot report the length in an `int` and
returns a negative value; `bbus_build_string` takes that for a text that fits
and returns the first buffer of `128` bytes holding the first `127` characters,
with no error set, rather than `NULL` with `BBUS_NOSPACE`. -/
theorem bbus_build_string_overlong_text :
    32768 ≤ (List.replicate (2 ^ 31) 'a').length ∧
    bbus_build_string true (fun _ => true) (List.replicate (2 ^ 31) 'a') =
      { buf := some (128, List.replicate 127 'a'), err := none } ∧
    bbus_build_string true (fun _ => true) (List.replicate (2 ^ 31) 'a') ≠
      { buf := none, err := some .BBUS_NOSPACE } := by
  have hlen : (List.replicate (2 ^ 31) 'a').length = 2 ^ 31 := List.length_replicate _ _
  have hlong : INT_MAX < (List.replicate (2 ^ 31) 'a').length := by
    rw [hlen]; norm_num [INT_MAX]
  have hmin : min 127 (2 ^ 31) = 127 := by norm_num
  have htake : (List.replicate (2 ^ 31) 'a').take 127 = List.replicate 127 'a' := by
    rw [List.take_replicate, hmin]
  have hres := bbus_build_string_overflow (fun _ => true) (List.replicate (2 ^ 31) 'a') hlong
  rw [htake] at hres
  refine ⟨by rw [hlen]; norm_num, hres, ?_⟩
  rw [hres]
  intro h
  have := congrArg built.err h
  simp at this

/-- C10, amended: when every allocation succeeds and the formatted text has a
length `L ≤ INT_MAX`, one that `vsnprintf` can report in `int r`,
`bbus_build_string` returns the whole text exactly when `L < 32768 = 128 * 2^8`;
for `L ≥ 32768` it returns `NULL` with the error `BBUS_NOSPACE` set; a returned
buffer has size `128` when `L < 128` and otherwise the least `128 * 2^k`,
`1 ≤ k ≤ 8`, that is greater than `L`. -/
theorem bbus_build_string_capacity (realloc_ok : Nat → Bool) (text : List Char)
    (hre : ∀ i, realloc_ok i = true) (hint : text.length ≤ INT_MAX) :
    ((∃ size, (bbus_build_string true realloc_ok text).buf = some (size, text)) ↔
        text.length < 32768) ∧
    (32768 = 128 * 2 ^ 8) ∧
    (32768 ≤ text.length →
      bbus_build_string true realloc_ok text = { buf := none, err := some .BBUS_NOSPACE }) ∧
    (text.length < 128 →
      bbus_build_string true realloc_ok text = { buf := some (128, text), err := none }) ∧
    (128 ≤ text.length → text.length < 32768 →
      ∃ k, 1 ≤ k ∧ k ≤ 8 ∧
        bbus_build_string true realloc_ok text =
          { buf := some (128 * 2 ^ k, text), err := none } ∧
        text.length < 128 * 2 ^ k ∧
        ∀ j, 1 ≤ j → j ≤ 8 → text.length < 128 * 2 ^ j → 128 * 2 ^ k ≤ 128 * 2 ^ j) := by
  have hsmall : text.length < 128 →
      bbus_build_string true realloc_ok text = { buf := some (128, text), err := none } := by
    intro h
    have hn : ¬ ((text.length : Int) ≥ ((128 : Nat) : Int)) := by
      intro h'
      have : 128 ≤ text.length := by exact_mod_cast h'
      omega
    simp only [bbus_build_string, vsnprintf, if_pos hint, INITIAL_BUFSIZE, Bool.true_eq_false,
      if_false, if_neg hn]
    rw [List.take_of_length_le (by omega)]
  have hbig : 32768 ≤ text.length →
      bbus_build_string true realloc_ok text = { buf := none, err := some .BBUS_NOSPACE } := by
    intro h
    have hy : (text.length : Int) ≥ ((128 : Nat) : Int) := by
      have : 128 ≤ text.length := by omega
      exact_mod_cast this
    have hy2 : (text.length : Int) ≥ ((128 * 2 ^ (7 + 1) : Nat) : Int) := by
      have : 128 * 2 ^ (7 + 1) ≤ text.length := by norm_num; omega
      exact_mod_cast this
    simp only [bbus_build_string, vsnprintf, if_pos hint, INITIAL_BUFSIZE, MAX_ITERATIONS,
      Bool.true_eq_false, if_false, if_pos hy]
    rw [grow_exhausted realloc_ok text hre hint 7 0 128 _ _ (by norm_num; omega)]
    simp only [if_pos hy2]
  have hmid : ∀ j, j < 8 → 128 * 2 ^ j ≤ text.length → text.length < 128 * 2 ^ (j + 1) →
      bbus_build_string true realloc_ok text =
        { buf := some (128 * 2 ^ (j + 1), text), err := none } := by
    intro j hj hlo hhi
    have hy : (text.length : Int) ≥ ((128 : Nat) : Int) := by
      have h1 : 1 ≤ 2 ^ j := Nat.one_le_two_pow
      have : 128 ≤ text.length := by nlinarith
      exact_mod_cast this
    have hn2 : ¬ ((text.length : Int) ≥ ((128 * 2 ^ (j + 1) : Nat) : Int)) := by
      intro h'
      have : 128 * 2 ^ (j + 1) ≤ text.length := by exact_mod_cast h'
      omega
    simp only [bbus_build_string, vsnprintf, if_pos hint, INITIAL_BUFSIZE, MAX_ITERATIONS,
      Bool.true_eq_false, if_false, if_pos hy]
    rw [grow_found realloc_ok text hre hint 8 0 128 _ _ j hj hlo hhi]
    simp only [if_neg hn2]
  refine ⟨?_, by norm_num, hbig, hsmall, ?_⟩
  · constructor
    · rintro ⟨size, h⟩
      by_contra hge
      rw [hbig (by omega)] at h
      simp at h
    · intro h
      by_cases h128 : text.length < 128
      · exact ⟨128, by rw [hsmall h128]⟩
      · have hex : ∃ j, j < 8 ∧ 128 * 2 ^ j ≤ text.length ∧ text.length < 128 * 2 ^ (j + 1) := by
          by_cases c0 : text.length < 256
          · exact ⟨0, by norm_num, by norm_num; omega, by norm_num; omega⟩
          by_cases c1 : text.length < 512
          · exact ⟨1, by norm_num, by norm_num; omega, by norm_num; omega⟩
          by_cases c2 : text.length < 1024
          · exact ⟨2, by norm_num, by norm_num; omega, by norm_num; omega⟩
          by_cases c3 : text.length < 2048
          · exact ⟨3, by norm_num, by norm_num; omega, by norm_num; omega⟩
          by_cases c4 : text.length < 4096
          · exact ⟨4, by norm_num, by norm_num; omega, by norm_num; omega⟩
          by_cases c5 : text.length < 8192
          · exact ⟨5, by norm_num, by norm_num; omega, by norm_num; omega⟩
          by_cases c6 : text.length < 16384
          · exact ⟨6, by norm_num, by norm_num; omega, by norm_num; omega⟩
          · exact ⟨7, by norm_num, by norm_num; omega, by norm_num; omega⟩
        obtain ⟨j, hj, hlo, hhi⟩ := hex
        exact ⟨128 * 2 ^ (j + 1), by rw [hmid j hj hlo hhi]⟩
  · intro h128 h
    have hex : ∃ j, j < 8 ∧ 128 * 2 ^ j ≤ text.length ∧ text.length < 128 * 2 ^ (j + 1) := by
      by_cases c0 : text.length < 256
      · exact ⟨0, by norm_num, by norm_num; omega, by norm_num; omega⟩
      by_cases c1 : text.length < 512
      · exact ⟨1, by norm_num, by norm_num; omega, by norm_num; omega⟩
      by_cases c2 : text.length < 1024
      · exact ⟨2, by norm_num, by norm_num; omega, by norm_num; omega⟩
      by_cases c3 : text.length < 2048
      · exact ⟨3, by norm_num, by norm_num; omega, by norm_num; omega⟩
      by_cases c4 : text.length < 4096
      · exact ⟨4, by norm_num, by norm_num; omega, by norm_num; omega⟩
      by_cases c5 : text.length < 8192
      · exact ⟨5, by norm_num, by norm_num; omega, by norm_num; omega⟩
      by_cases c6 : text.length < 16384
      · exact ⟨6, by norm_num, by norm_num; omega, by norm_num; omega⟩
      · exact ⟨7, by norm_num, by norm_num; omega, by norm_num; omega⟩
    obtain ⟨j, hj, hlo, hhi⟩ := hex
    refine ⟨j + 1, by omega, by omega, hmid j hj hlo hhi, hhi, ?_⟩
    intro i hi1 hi8 hlt
    apply Nat.mul_le_mul_left
    apply Nat.pow_le_pow_right (by norm_num)
    by_contra hcon
    have hij : i ≤ j := by omega
    have : 2 ^ i ≤ 2 ^ j := Nat.pow_le_pow_right (by norm_num) hij
    have : 128 * 2 ^ i ≤ 128 * 2 ^ j := Nat.mul_le_mul_left _ this
    omega

/-! ### Heaps -/

theorem deref_append_new {α : Type} (l : List α) (x : α) :
    deref (l ++ [x]) (l.length + 1) = some x := by
  simp [deref]

theorem store_append_new {α : Type} (l : List α) (x y : α) :
    store (l ++ [x]) (l.length + 1) y = l ++ [y] := by
  simp [store]

theorem modify_append_new {α : Type} (l : List α) (x : α) (f : α → α) :
    modify (l ++ [x]) (l.length + 1) f = some (l ++ [f x]) := by
  simp [modify, deref_append_new, store_append_new]

/-! ### `accept_clients` -/

theorem accept_client_effect (s : Daemon) (p : pending) (htail : s.clients_tail = 0) :
    ∃ s1, accept_client s p = .ret s1 ∧ s1.clients_tail = 0 ∧
      ((s1.conns = s.conns ∧ s1.curtok = s.curtok) ∨
       (∃ t, s1.conns = s.conns ++ [{ type := t, token := none }] ∧ s1.curtok = s.curtok) ∨
       (p.accepted = some .BBUS_CLIENT_CALLER ∧
          s1.conns = s.conns ++
            [{ type := .BBUS_CLIENT_CALLER, token := some (make_token s.curtok).1 }] ∧
          s1.curtok = (make_token s.curtok).2)) := by
  obtain ⟨acc, mok, ins⟩ := p
  cases acc with
  | none => exact ⟨_, rfl, htail, Or.inl ⟨rfl, rfl⟩⟩
  | some t =>
    cases mok with
    | true =>
      simp only [accept_client, client_list_add, htail, insque, modify_append_new,
        Outcome.bind, if_true, Bool.true_eq_false, if_false]
      exact ⟨_, rfl, rfl, Or.inr (Or.inl ⟨t, rfl, rfl⟩)⟩
    | false =>
      cases t with
      | BBUS_CLIENT_CALLER =>
        by_cases hins : ins < 0
        · simp [accept_client, client_list_add, Outcome.bind, bbus_client_gettype,
            bbus_client_settoken, deref_append_new, modify_append_new, hins, log, htail]
        · simp [accept_client, client_list_add, Outcome.bind, bbus_client_gettype,
            bbus_client_settoken, deref_append_new, modify_append_new, hins, log, htail]
      | BBUS_CLIENT_SERVICE =>
        simp [accept_client, client_list_add, Outcome.bind, bbus_client_gettype,
            deref_append_new, htail]
      | unknown n =>
        simp [accept_client, client_list_add, Outcome.bind, bbus_client_gettype,
            deref_append_new, htail]

theorem accept_clients_append (s : Daemon) (ps qs : List pending) :
    accept_clients s (ps ++ qs) =
      (accept_clients s ps).bind (fun s1 => accept_clients s1 qs) := by
  induction ps generalizing s with
  | nil => rfl
  | cons p ps ih =>
    simp only [List.cons_append, accept_clients]
    cases accept_client s p with
    | ret s1 => simp only [Outcome.bind]; exact ih s1
    | died m => rfl
    | invalid => rfl

theorem tokens_fresh_step (s : Daemon) (p : pending) (n : Nat)
    (hinv : tokens_fresh s n) (hn : n + callers_accepted [p] ≤ UINT_MAX) :
    ∃ s1, accept_client s p = .ret s1 ∧ tokens_fresh s1 (n + callers_accepted [p]) := by
  obtain ⟨htail, hcur, hle, hpair⟩ := hinv
  obtain ⟨s1, hs1, htail1, hcase⟩ := accept_client_effect s p htail
  refine ⟨s1, hs1, htail1, ?_⟩
  rcases hcase with ⟨hc, hk⟩ | ⟨t, hc, hk⟩ | ⟨hacc, hc, hk⟩
  · rw [hc, hk]
    exact ⟨by omega, hle, hpair⟩
  · rw [hc, hk]
    refine ⟨by omega, ?_, ?_⟩
    · intro c hcmem t ht
      rcases List.mem_append.mp hcmem with h | h
      · exact hle c h t ht
      · rw [List.mem_singleton.mp h] at ht
        simp at ht
    · rw [List.pairwise_append]
      refine ⟨hpair, List.pairwise_singleton _ _, ?_⟩
      intro a _ b hb t _
      rw [List.mem_singleton.mp hb]
      simp
  · have hone : callers_accepted [p] = 1 := by simp [callers_accepted, hacc]
    rw [hone] at hn ⊢
    have hlt : s.curtok < UINT_MAX := by omega
    rw [make_token_lt _ hlt] at hc hk
    simp only at hc hk
    rw [hc, hk]
    refine ⟨by omega, ?_, ?_⟩
    · intro c hcmem t ht
      rcases List.mem_append.mp hcmem with h | h
      · have := hle c h t ht
        omega
      · rw [List.mem_singleton.mp h] at ht
        simp only [Option.some.injEq] at ht
        omega
    · rw [List.pairwise_append]
      refine ⟨hpair, List.pairwise_singleton _ _, ?_⟩
      intro a ha b hb t hat
      rw [List.mem_singleton.mp hb]
      have := hle a ha t hat
      simp only [ne_eq, Option.some.injEq]
      omega

theorem tokens_fresh_run (ps : List pending) :
    ∀ (s : Daemon) (n : Nat), tokens_fresh s n → n + callers_accepted ps ≤ UINT_MAX →
      ∃ s1, accept_clients s ps = .ret s1 ∧ tokens_fresh s1 (n + callers_accepted ps) := by
  induction ps with
  | nil => intro s n h _; exact ⟨s, rfl, h⟩
  | cons p ps ih =>
    intro s n h hlen
    have hsplit : callers_accepted (p :: ps) = callers_accepted [p] + callers_accepted ps := by
      simp [callers_accepted]
    rw [hsplit] at hlen ⊢
    obtain ⟨s1, hs1, hinv1⟩ := tokens_fresh_step s p n h (by omega)
    obtain ⟨s2, hs2, hinv2⟩ := ih s1 (n + callers_accepted [p]) hinv1 (by omega)
    refine ⟨s2, ?_, ?_⟩
    · simp only [accept_clients, hs1, Outcome.bind]
      exact hs2
    · rw [← Nat.add_assoc]
      exact hinv2

theorem tokens_unique_of_pairwise (s : Daemon)
    (h : s.conns.Pairwise (fun a b => ∀ t, a.token = some t → b.token ≠ some t)) :
    tokens_unique s := by
  intro i j a b t hij ha hb _ _ hat hbt
  rw [List.pairwise_iff_getElem] at h
  obtain ⟨hi, hai⟩ := List.getElem?_eq_some_iff.mp ha
  obtain ⟨hj, hbj⟩ := List.getElem?_eq_some_iff.mp hb
  rcases Nat.lt_or_gt_of_ne hij with hlt | hgt
  · have := h i j hi hj hlt t (by rw [hai]; exact hat)
    rw [hbj] at this
    exact this hbt
  · have := h j i hj hi hgt t (by rw [hbj]; exact hbt)
    rw [hai] at this
    exact this hat


theorem accept_client_caller_kept (s : Daemon) :
    ∃ s1, accept_client s caller_kept = .ret s1 ∧
      s1.conns = s.conns ++
        [{ type := .BBUS_CLIENT_CALLER, token := some (make_token s.curtok).1 }] ∧
      s1.curtok = (make_token s.curtok).2 := by
  simp [caller_kept, accept_client, client_list_add, Outcome.bind, bbus_client_gettype,
    bbus_client_settoken, deref_append_new, modify_append_new]

theorem callers_kept_run (n : Nat) :
    ∀ s : Daemon, s.curtok + n ≤ UINT_MAX →
      ∃ s1, accept_clients s (List.replicate n caller_kept) = .ret s1 ∧
        s1.curtok = s.curtok + n ∧
        ∃ tl, s1.conns = s.conns ++ tl ∧ tl.length = n ∧
          (0 < n → tl[0]? =
            some { type := .BBUS_CLIENT_CALLER, token := some (s.curtok + 1) }) := by
  induction n with
  | zero =>
    intro s _
    exact ⟨s, rfl, rfl, [], by simp, rfl, by omega⟩
  | succ n ih =>
    intro s hle
    obtain ⟨s1, hs1, hc1, hk1⟩ := accept_client_caller_kept s
    rw [make_token_lt _ (by omega)] at hc1 hk1
    simp only at hc1 hk1
    obtain ⟨s2, hs2, hk2, tl, hc2, hlen, _⟩ := ih s1 (by omega)
    refine ⟨s2, ?_, by omega, { type := .BBUS_CLIENT_CALLER, token := some (s.curtok + 1) } :: tl,
      ?_, by simp [hlen], fun _ => by simp⟩
    · simp only [List.replicate_succ, accept_clients, hs1, Outcome.bind]
      exact hs2
    · rw [hc2, hc1]
      simp

/-- C1, as stated, fails: after `2^32` callers have been accepted and given a
token, the counter has wrapped and the last caller carries token `1`, which
the first caller, still connected, carries too. -/
theorem token_reused_after_wraparound :
    ∃ s, accept_clients fresh_daemon (List.replicate (2 ^ 32) caller_kept) = .ret s ∧
      ¬ tokens_unique s := by
  have h232 : (2 : Nat) ^ 32 = 4294967295 + 1 := by norm_num
  rw [h232, List.replicate_succ', accept_clients_append]
  obtain ⟨s1, hs1, hk1, tl, hc1, hlen, hhead⟩ :=
    callers_kept_run 4294967295 fresh_daemon (by simp [fresh_daemon, startup, UINT_MAX])
  obtain ⟨s2, hs2, hc2, _⟩ := accept_client_caller_kept s1
  have hk : s1.curtok = UINT_MAX := by
    rw [hk1]; simp [fresh_daemon, startup, UINT_MAX]
  rw [hk, make_token_max] at hc2
  refine ⟨s2, ?_, ?_⟩
  · rw [hs1]
    simp only [Outcome.bind, accept_clients, hs2]
  · intro huniq
    have hconns : s2.conns = tl ++ [{ type := .BBUS_CLIENT_CALLER, token := some 1 }] := by
      rw [hc2, hc1]; simp [fresh_daemon, startup]
    have h0 : s2.conns[0]? = some { type := .BBUS_CLIENT_CALLER, token := some 1 } := by
      rw [hconns, List.getElem?_append_left (by omega)]
      exact hhead (by norm_num)
    have hlast : s2.conns[4294967295]? =
        some { type := .BBUS_CLIENT_CALLER, token := some 1 } := by
      rw [hconns, List.getElem?_append_right (by omega), hlen]
      simp
    exact huniq 0 4294967295 _ _ 1 (by norm_num) h0 hlast rfl rfl rfl rfl

/-- C1, amended: in every state reached from the start of the daemon by
accepting a sequence of pending connections of which at most `2^32 - 1` are
callers, `accept_clients` returns and no two caller connections carry the
same token. -/
theorem tokens_unique_before_wraparound (head : Ptr) (elems : List clientlist_elem)
    (srvc_map : Option service_map) (ps : List pending)
    (hcallers : callers_accepted ps ≤ 2 ^ 32 - 1) :
    ∃ s, accept_clients (startup head elems srvc_map) ps = .ret s ∧ tokens_unique s := by
  have hinit : tokens_fresh (startup head elems srvc_map) 0 := by
    refine ⟨rfl, Nat.le_refl _, ?_, ?_⟩
    · intro c hc
      simp [startup] at hc
    · simp [startup]
  obtain ⟨s, hs, hinv⟩ := tokens_fresh_run ps _ 0 hinit (by unfold UINT_MAX; omega)
  exact ⟨s, hs, tokens_unique_of_pairwise s hinv.2.2.2⟩

theorem tokens_unique_before_wraparound_witness :
    callers_accepted [caller_kept, caller_ok, caller_kept] ≤ 2 ^ 32 - 1 ∧
    ∃ s, accept_clients (startup 1 [{ next := 0, prev := 0, cli := 0 }] none)
        [caller_kept, caller_ok, caller_kept] = .ret s ∧ tokens_unique s :=
  ⟨by decide, tokens_unique_before_wraparound 1 [{ next := 0, prev := 0, cli := 0 }] none
    [caller_kept, caller_ok, caller_kept] (by decide)⟩

/-- C3, the defect: a pending caller is accepted and `client_list_add` succeeds
(returns `0`); `accept_clients` takes the branch `r == NULL`, logs an error and
goes on to the next connection: `make_token` is not called, the client has no
token, the caller map stays empty and `clients_tail` stays `NULL`. -/
theorem accepted_caller_gets_no_token :
    ∃ s, accept_clients fresh_daemon [caller_ok] = .ret s ∧
      s.conns = [{ type := .BBUS_CLIENT_CALLER, token := none }] ∧
      s.caller_map = [] ∧ s.curtok = 0 ∧ s.clients_tail = 0 ∧
      s.elems = [{ next := 0, prev := 0, cli := 0 }, { next := 0, prev := 0, cli := 1 }] ∧
      client_list s = some [0] ∧
      s.logged = ["Error adding new client to the list: %s\n"] := by
  refine ⟨_, rfl, ?_⟩
  decide

/-! ### `pass_srvc_reply` -/

/-- C4: on every state and every reply message with header token `T`: when the
caller map maps `T` to an element holding connection `c`, `pass_srvc_reply`
makes one call of `bbus_srv_sendmsg`, to `c`, with the message as received, and
changes nothing else; when `T` is not in the caller map it returns `-1` having
sent nothing and left the caller map as it was; and whenever it returns, every
message it sent went to a connection the caller map maps `T` to. -/
theorem pass_srvc_reply_routes (s : Daemon) (srvc : Ptr) (msg : bbus_msg) (send_r : Int) :
    (∀ c, maps_to s msg.hdr.token c →
      pass_srvc_reply s srvc msg send_r =
        .ret ({ s with sent := s.sent ++ [(c, msg)] }, send_r)) ∧
    (s.caller_map.lookup msg.hdr.token = none →
      ∃ s1, pass_srvc_reply s srvc msg send_r = .ret (s1, -1) ∧
        s1.sent = s.sent ∧ s1.caller_map = s.caller_map) ∧
    (∀ s1 r, pass_srvc_reply s srvc msg send_r = .ret (s1, r) →
      s1.caller_map = s.caller_map ∧
      ∃ new, s1.sent = s.sent ++ new ∧
        ∀ c m, (c, m) ∈ new ↔ (maps_to s msg.hdr.token c ∧ m = msg)) := by
  refine ⟨?_, ?_, ?_⟩
  · rintro c ⟨e, el, hlook, hder, hcli⟩
    have he : e ≠ 0 := by
      intro h0
      rw [h0] at hder
      simp [deref] at hder
    simp only [pass_srvc_reply, bbus_hmap_find, hlook, if_neg he, hder, bbus_srv_sendmsg, hcli]
  · intro hnone
    refine ⟨log s "Caller not found for reply.\n", ?_, rfl, rfl⟩
    simp only [pass_srvc_reply, bbus_hmap_find, hnone, if_true]
  · intro s1 r hret
    unfold pass_srvc_reply at hret
    by_cases h0 : bbus_hmap_find s.caller_map msg.hdr.token = 0
    · simp only [h0, if_true, Outcome.ret.injEq, Prod.mk.injEq] at hret
      obtain ⟨hs1, _⟩ := hret
      subst hs1
      refine ⟨rfl, [], by simp [log], ?_⟩
      intro c m
      constructor
      · intro h; simp at h
      · rintro ⟨⟨e, el, hlook, hder, _⟩, _⟩
        exfalso
        simp only [bbus_hmap_find, hlook] at h0
        rw [h0] at hder
        simp [deref] at hder
    · simp only [if_neg h0] at hret
      cases hder : deref s.elems (bbus_hmap_find s.caller_map msg.hdr.token) with
      | none => simp [hder] at hret
      | some el =>
        simp only [hder, Outcome.ret.injEq, Prod.mk.injEq] at hret
        obtain ⟨hs1, _⟩ := hret
        subst hs1
        refine ⟨rfl, [(el.cli, msg)], rfl, ?_⟩
        intro c m
        have hlook : s.caller_map.lookup msg.hdr.token =
            some (bbus_hmap_find s.caller_map msg.hdr.token) := by
          unfold bbus_hmap_find at h0 ⊢
          cases hl : s.caller_map.lookup msg.hdr.token with
          | none => simp [hl] at h0
          | some v => rfl
        constructor
        · intro h
          simp only [List.mem_singleton, Prod.mk.injEq] at h
          obtain ⟨hc, hm⟩ := h
          exact ⟨⟨_, el, hlook, hder, hc.symm⟩, hm⟩
        · rintro ⟨⟨e, el2, hlook2, hder2, hcli2⟩, hm⟩
          rw [hlook] at hlook2
          simp only [Option.some.injEq] at hlook2
          rw [← hlook2, hder] at hder2
          simp only [Option.some.injEq] at hder2
          simp only [List.mem_singleton, Prod.mk.injEq]
          exact ⟨by rw [← hcli2, hder2], hm⟩

theorem pass_srvc_reply_routes_witness :
    pass_srvc_reply two_peers 2 reply_to_1 0 =
      .ret ({ two_peers with sent := two_peers.sent ++ [(1, reply_to_1)] }, 0) ∧
    (∃ s1, pass_srvc_reply { two_peers with caller_map := [] } 2 reply_to_1 0 = .ret (s1, -1) ∧
      s1.sent = [] ∧ s1.caller_map = []) :=
  ⟨(pass_srvc_reply_routes two_peers 2 reply_to_1 0).1 1
      ⟨1, { next := 2, prev := 0, cli := 1 }, by decide, by decide, rfl⟩,
   (pass_srvc_reply_routes { two_peers with caller_map := [] } 2 reply_to_1 0).2.1 (by decide)⟩

/-! ### `handle_clientcall` -/

theorem resolve_empty (path : List String) : resolve empty_service_map path = none := by
  match path with
  | [] => rfl
  | [_] => rfl
  | _ :: _ :: _ => rfl

theorem locate_method_empty (s : Daemon) (mname : String)
    (h : s.srvc_map = some empty_service_map) :
    as_specified.locate_method s mname = none := by
  simp [as_specified, h, resolve_empty]

/-- C5, as stated, fails: caller `1` calls `foo.bar` on an empty registry;
`handle_clientcall` returns `-1`, `handle_client` logs and returns, and no call
of `bbus_srv_sendmsg` has been made: the caller got no error reply. -/
theorem unknown_method_sends_no_reply :
    handle_clientcall as_specified two_peers 1 call_foo_bar 0 =
      .ret (log two_peers "No such method: %s\n", -1) ∧
    handle_client as_specified two_peers 1 (recv_ok call_foo_bar) =
      .ret (log (log two_peers "No such method: %s\n") "Error on client call: %s\n") ∧
    (log (log two_peers "No such method: %s\n") "Error on client call: %s\n").sent = [] := by
  have hloc := locate_method_empty two_peers "foo.bar" rfl
  refine ⟨?_, ?_, rfl⟩
  · simp only [handle_clientcall, call_foo_bar, hloc]
  · have hty : bbus_client_gettype two_peers 1 = some .BBUS_CLIENT_CALLER := by decide
    have hv : ¬ (as_specified.validate_msg call_foo_bar < 0) := by decide
    simp only [handle_client, recv_ok, hty, hv, if_false, handle_clientcall]
    simp only [call_foo_bar, hloc, Outcome.bind]
    rfl

/-- C5, amended: for every call message whose method path `locate_method` does
not resolve, `handle_clientcall` logs the failure and returns `-1`; it sends no
message to any connection, neither an error reply to the caller nor a forward,
and changes none of the client list, the caller map and the registry. -/
theorem handle_clientcall_unknown_method (u : Undefined) (s : Daemon) (cli : Ptr)
    (msg : bbus_msg) (junk : Int) (hnone : u.locate_method s msg.payload = none) :
    ∃ s1, handle_clientcall u s cli msg junk = .ret (s1, -1) ∧
      s1 = log s "No such method: %s\n" ∧ s1.sent = s.sent ∧
      s1.elems = s.elems ∧ s1.clients_head = s.clients_head ∧ s1.conns = s.conns ∧
      s1.caller_map = s.caller_map ∧ s1.srvc_map = s.srvc_map := by
  refine ⟨log s "No such method: %s\n", ?_, rfl, rfl, rfl, rfl, rfl, rfl, rfl⟩
  simp only [handle_clientcall, hnone]

theorem handle_clientcall_unknown_method_witness :
    as_specified.locate_method two_peers call_foo_bar.payload = none ∧
    ∃ s1, handle_clientcall as_specified two_peers 1 call_foo_bar 0 = .ret (s1, -1) ∧
      s1 = log two_peers "No such method: %s\n" ∧ s1.sent = two_peers.sent ∧
      s1.elems = two_peers.elems ∧ s1.clients_head = two_peers.clients_head ∧
      s1.conns = two_peers.conns ∧
      s1.caller_map = two_peers.caller_map ∧ s1.srvc_map = two_peers.srvc_map :=
  ⟨locate_method_empty two_peers _ rfl,
   handle_clientcall_unknown_method as_specified two_peers 1 call_foo_bar 0
    (locate_method_empty two_peers _ rfl)⟩

/-! ### `handle_client` -/

/-- C6, as stated, fails: service `2` sends a `ServiceRegister` message that
announces `calc.add`; `handle_client` dispatches it to `register_service` and
returns with the state unchanged: the registry is still empty and `calc.add`
does not resolve. -/
theorem register_service_registers_nothing :
    handle_client as_specified two_peers 2 (recv_ok register_calc_add) = .ret two_peers ∧
    two_peers.srvc_map = some empty_service_map ∧
    as_specified.locate_method two_peers register_calc_add.payload = none := by
  refine ⟨?_, rfl, locate_method_empty two_peers _ rfl⟩
  have hty : bbus_client_gettype two_peers 2 = some .BBUS_CLIENT_SERVICE := by decide
  have hv : ¬ (as_specified.validate_msg register_calc_add < 0) := by decide
  simp only [handle_client, recv_ok, hty, hv, if_false, register_calc_add, register_service]
  rfl

/-- C6, amended: for every service connection and every validly framed
`ServiceRegister` message received from it, `handle_client` dispatches to
`register_service`, which returns `0`, and `handle_client` returns with the
whole daemon state, the method registry included, unchanged. -/
theorem register_service_changes_nothing (u : Undefined) (s : Daemon) (cli : Ptr)
    (io : received) (hrecv : 0 ≤ io.recv_r) (hvalid : 0 ≤ u.validate_msg io.msgbuf)
    (hrole : bbus_client_gettype s cli = some .BBUS_CLIENT_SERVICE)
    (hkind : io.msgbuf.hdr.msgtype = .BBUS_MSGTYPE_SRVREG) :
    register_service s cli io.msgbuf = (s, 0) ∧ handle_client u s cli io = .ret s := by
  refine ⟨rfl, ?_⟩
  have h1 : ¬ (io.recv_r < 0) := by omega
  have h2 : ¬ (u.validate_msg io.msgbuf < 0) := by omega
  simp only [handle_client, h1, h2, if_false, hrole, hkind, register_service]
  rfl

theorem register_service_changes_nothing_witness :
    (0 ≤ (recv_ok register_calc_add).recv_r ∧
      0 ≤ as_specified.validate_msg (recv_ok register_calc_add).msgbuf ∧
      bbus_client_gettype two_peers 2 = some .BBUS_CLIENT_SERVICE ∧
      (recv_ok register_calc_add).msgbuf.hdr.msgtype = .BBUS_MSGTYPE_SRVREG) ∧
    register_service two_peers 2 (recv_ok register_calc_add).msgbuf = (two_peers, 0) ∧
    handle_client as_specified two_peers 2 (recv_ok register_calc_add) = .ret two_peers :=
  ⟨⟨by decide, by decide, by decide, rfl⟩,
   register_service_changes_nothing as_specified two_peers 2 (recv_ok register_calc_add)
    (by decide) (by decide) (by decide) rfl⟩

/-- C7: for every message that was received and found valid and whose kind
`handle_client` does not dispatch for the role of the sender (a caller sending
anything but a call, a service sending anything but a registration, a
withdrawal or a reply, a client of another role sending anything),
`handle_client` returns having only logged: it sends nothing and leaves the client
list, the clients, the caller map and the method registry unchanged. -/
theorem handle_client_discards_disallowed (u : Undefined) (s : Daemon) (cli : Ptr)
    (io : received) (role : client_type)
    (hrecv : 0 ≤ io.recv_r) (hvalid : 0 ≤ u.validate_msg io.msgbuf)
    (hrole : bbus_client_gettype s cli = some role)
    (hkind : kind_allowed role io.msgbuf.hdr.msgtype = false) :
    ∃ s1 m, handle_client u s cli io = .ret s1 ∧ s1 = log s m ∧
      s1.sent = s.sent ∧
      s1.clients_head = s.clients_head ∧ s1.clients_tail = s.clients_tail ∧
      s1.elems = s.elems ∧ client_list s1 = client_list s ∧
      s1.conns = s.conns ∧ s1.caller_map = s.caller_map ∧ s1.srvc_map = s.srvc_map ∧
      s1.curtok = s.curtok := by
  have h1 : ¬ (io.recv_r < 0) := by omega
  have h2 : ¬ (u.validate_msg io.msgbuf < 0) := by omega
  have key : ∃ m, handle_client u s cli io = .ret (log s m) := by
    simp only [handle_client, h1, h2, if_false, hrole]
    cases role with
    | BBUS_CLIENT_CALLER =>
      cases hk : io.msgbuf.hdr.msgtype with
      | BBUS_MSGTYPE_CLICALL => rw [hk] at hkind; simp [kind_allowed] at hkind
      | BBUS_MSGTYPE_SRVREG => exact ⟨_, rfl⟩
      | BBUS_MSGTYPE_SRVUNREG => exact ⟨_, rfl⟩
      | BBUS_MSGTYPE_SRVREPLY => exact ⟨_, rfl⟩
      | unknown n => exact ⟨_, rfl⟩
    | BBUS_CLIENT_SERVICE =>
      cases hk : io.msgbuf.hdr.msgtype with
      | BBUS_MSGTYPE_CLICALL => exact ⟨_, rfl⟩
      | BBUS_MSGTYPE_SRVREG => rw [hk] at hkind; simp [kind_allowed] at hkind
      | BBUS_MSGTYPE_SRVUNREG => rw [hk] at hkind; simp [kind_allowed] at hkind
      | BBUS_MSGTYPE_SRVREPLY => rw [hk] at hkind; simp [kind_allowed] at hkind
      | unknown n => exact ⟨_, rfl⟩
    | unknown n => exact ⟨_, rfl⟩
  obtain ⟨m, hm⟩ := key
  exact ⟨log s m, m, hm, rfl, rfl, rfl, rfl, rfl, rfl, rfl, rfl, rfl, rfl⟩

theorem handle_client_discards_disallowed_witness :
    (0 ≤ (recv_ok reply_to_1).recv_r ∧
      0 ≤ as_specified.validate_msg (recv_ok reply_to_1).msgbuf ∧
      bbus_client_gettype two_peers 1 = some .BBUS_CLIENT_CALLER ∧
      kind_allowed .BBUS_CLIENT_CALLER (recv_ok reply_to_1).msgbuf.hdr.msgtype = false) ∧
    ∃ s1 m, handle_client as_specified two_peers 1 (recv_ok reply_to_1) = .ret s1 ∧
      s1 = log two_peers m ∧ s1.sent = two_peers.sent ∧
      s1.clients_head = two_peers.clients_head ∧ s1.clients_tail = two_peers.clients_tail ∧
      s1.elems = two_peers.elems ∧ client_list s1 = client_list two_peers ∧
      s1.conns = two_peers.conns ∧ s1.caller_map = two_peers.caller_map ∧
      s1.srvc_map = two_peers.srvc_map ∧ s1.curtok = two_peers.curtok :=
  ⟨⟨by decide, by decide, by decide, rfl⟩,
   handle_client_discards_disallowed as_specified two_peers 1 (recv_ok reply_to_1)
    .BBUS_CLIENT_CALLER (by decide) (by decide) (by decide) rfl⟩

/-- C8, as stated, fails: the receive on caller `1` fails; `handle_client`
logs and returns, and afterwards client `1` is still in the client list that
`run_main_loop` polls and the caller map still maps token `1` to it. -/
theorem failed_receive_keeps_client :
    handle_client as_specified two_peers 1 recv_failed =
      .ret (log two_peers "Error receiving message from client: %s\n") ∧
    client_list (log two_peers "Error receiving message from client: %s\n") = some [1, 2] ∧
    maps_to (log two_peers "Error receiving message from client: %s\n") 1 1 := by
  refine ⟨rfl, by decide, ⟨1, { next := 2, prev := 0, cli := 1 }, by decide, by decide, rfl⟩⟩

/-- C8, amended: for every daemon state and every connection, when the receive
fails `handle_client` logs the error and returns; the client list that
`run_main_loop` adds to the poll set, the clients, the caller map and the
method registry are unchanged and nothing is sent, so a connection that was
in the list or in the caller map remains there. -/
theorem handle_client_recv_failure (u : Undefined) (s : Daemon) (cli : Ptr) (io : received)
    (hrecv : io.recv_r < 0) :
    ∃ s1, handle_client u s cli io = .ret s1 ∧
      s1 = log s "Error receiving message from client: %s\n" ∧
      client_list s1 = client_list s ∧ s1.elems = s.elems ∧ s1.conns = s.conns ∧
      s1.caller_map = s.caller_map ∧ s1.srvc_map = s.srvc_map ∧ s1.sent = s.sent := by
  refine ⟨log s "Error receiving message from client: %s\n", ?_, rfl, rfl, rfl, rfl, rfl,
    rfl, rfl⟩
  simp only [handle_client, hrecv, if_true]

theorem handle_client_recv_failure_witness :
    recv_failed.recv_r < 0 ∧
    ∃ s1, handle_client as_specified two_peers 1 recv_failed = .ret s1 ∧
      s1 = log two_peers "Error receiving message from client: %s\n" ∧
      client_list s1 = client_list two_peers ∧ s1.elems = two_peers.elems ∧
      s1.conns = two_peers.conns ∧
      s1.caller_map = two_peers.caller_map ∧
      s1.srvc_map = two_peers.srvc_map ∧ s1.sent = two_peers.sent :=
  ⟨by decide, handle_client_recv_failure as_specified two_peers 1 recv_failed (by decide)⟩

/-! ### `make_service_map` -/

/-- C9, the defect: whatever the three allocations give, `make_service_map`
ends in `die`; in particular when all three succeed it does not return. -/
theorem make_service_map_always_dies (s : Daemon) (malloc_ok subsrvc_ok methods_ok : Bool) :
    make_service_map s malloc_ok subsrvc_ok methods_ok =
      .died "Error creating the service map: %s\n" ∧
    make_service_map s true true true = .died "Error creating the service map: %s\n" := by
  constructor
  · cases malloc_ok <;> cases subsrvc_ok <;> cases methods_ok <;> rfl
  · rfl

theorem bbus_build_string_capacity_witness :
    (∀ i : Nat, (fun _ : Nat => true) i = true) ∧
    (List.replicate 200 'a').length ≤ INT_MAX ∧
    bbus_build_string true (fun _ => true) (List.replicate 200 'a') =
      { buf := some (256, List.replicate 200 'a'), err := none } := by
  have hlen : (List.replicate 200 'a').length = 200 := List.length_replicate _ _
  have hint : (List.replicate 200 'a').length ≤ INT_MAX := by
    rw [hlen]; norm_num [INT_MAX]
  refine ⟨fun _ => rfl, hint, ?_⟩
  obtain ⟨k, hk1, _, heq, _, hmin⟩ :=
    (bbus_build_string_capacity (fun _ => true) (List.replicate 200 'a')
      (fun _ => rfl) hint).2.2.2.2 (by rw [hlen]; norm_num) (by rw [hlen]; norm_num)
  have h256 : 128 * 2 ^ k ≤ 128 * 2 ^ 1 :=
    hmin 1 (by norm_num) (by norm_num) (by rw [hlen]; norm_num)
  have hk : k = 1 := by
    have h2 : 2 ^ k ≤ 2 ^ 1 := by omega
    have := (Nat.pow_le_pow_iff_right (by norm_num : 1 < 2)).mp h2
    omega
  rw [heq, hk]
  norm_num

end Busybus
